import Mathlib

/-!
Shallow embedding of `src/scanner/yahoo_finance.cpp` (the Scrooge-McDuck
Yahoo Finance table function for DuckDB).

Conventions of the embedding:
* C++ `int64_t` epochs are modelled as `Int`; C++ integer division truncates
  toward zero, which is `Int.tdiv` in Lean (on the non-negative operands
  arising under the validated preconditions it agrees with `/`, i.e. `Int.ediv`).
* The constructor stores `expected_tuples` in a 32-bit `int`
  (yahoo_finance.cpp line 31): the narrowing conversion from the `int64_t`
  expression is modelled by `toInt32`, the two's-complement wrap that every
  mainstream implementation performs (and that C++20 mandates).
* `duckdb::Value` inputs of `Bind` are modelled as already-extracted values:
  the symbol string, the two dates as day counts (`duckdb::date_t` stores days
  since the Unix epoch, and `duckdb::Date::Epoch` multiplies by 86400), and the
  interval string.
* A `duckdb::ReadCSVRelation` plan is modelled by the data the code puts into
  it: the URL string, the column definitions, and the two named parameters.
* The external fetch collaborator (`plan->Execute()` followed by `Fetch()`) is
  modelled as a function `fetch : CSVPlan → Option α`; `none` models a null
  result chunk (zero rows for the window), `some` a non-empty chunk.
* Exceptions thrown by `Bind`/`ValidInterval` are modelled with `Except String`.
-/

namespace Scrooge

/-- Embeds `duckdb::Interval::SECS_PER_DAY`. -/
def SECS_PER_DAY : Int := 86400

/-- Embeds `IntervalInEpoch` (yahoo_finance.cpp lines 7-21): maps an interval
label to its duration in seconds, returning 0 for any unsupported label. -/
def IntervalInEpoch (interval : String) : Int :=
  if interval = "1d" then SECS_PER_DAY
  else if interval = "5d" then 5 * SECS_PER_DAY
  else if interval = "1wk" then 7 * SECS_PER_DAY
  else if interval = "1mo" then 30 * SECS_PER_DAY
  else if interval = "3mo" then 90 * SECS_PER_DAY
  else 0

/-- Embeds `duckdb::LogicalType` restricted to the three types the scanner
uses. -/
inductive LogicalType where
  | DATE
  | DOUBLE
  | HUGEINT
  deriving DecidableEq, Repr

/-- Embeds the `duckdb::ReadCSVRelation` plan built by `GeneratePlan`:
the URL, the column definitions, and the two named parameters
(`HEADER` and `NULLSTR`) the code sets on it. -/
structure CSVPlan where
  url : String
  columns : List (String × LogicalType)
  header : Bool
  nullstr : String
  deriving DecidableEq, Repr

/-- Embeds `YahooFunctionData` (yahoo_finance.cpp lines 23-49); the
`conn` handle is an external resource and is not modelled. -/
structure YahooFunctionData where
  plan : Option CSVPlan
  symbol : String
  from_epoch : Int
  cur_to_epoch : Int
  to_epoch : Int
  interval : String
  increment_epoch : Int
  deriving DecidableEq, Repr

/-- The narrowing conversion `int64_t → int` (32-bit, two's complement):
reduces the value modulo 2^32 into the interval `[-2^31, 2^31)`. -/
def toInt32 (x : Int) : Int := (x + 2147483648) % 4294967296 - 2147483648

/-- Embeds the `YahooFunctionData` constructor (yahoo_finance.cpp lines 24-40):
computes `expected_tuples`, the step `increment_epoch`, and the initial
`cur_to_epoch`.  `Int.tdiv` is C++ truncating division; the source declares
`int expected_tuples`, so the `int64_t` expression is narrowed to 32 bits
(`toInt32`).  The `plan` member is default-initialized (null) by the C++
constructor. -/
def mkYahooFunctionData (symbol : String) (from_epoch to_epoch : Int)
    (interval : String) : YahooFunctionData :=
  let interval_epoch := IntervalInEpoch interval
  let expected_tuples := toInt32 ((to_epoch - from_epoch).tdiv interval_epoch + 1)
  let increment_epoch :=
    if expected_tuples > 60 then
      (to_epoch - from_epoch).tdiv (expected_tuples.tdiv 60 + 1)
    else
      to_epoch - from_epoch
  { plan := none
    symbol := symbol
    from_epoch := from_epoch
    cur_to_epoch := if from_epoch + increment_epoch < to_epoch then
                      from_epoch + increment_epoch
                    else to_epoch
    to_epoch := to_epoch
    interval := interval
    increment_epoch := increment_epoch }

/-- Embeds `GeneratePlan` (yahoo_finance.cpp lines 51-79).  Returns the plan
(`none` models the C++ `nullptr` return) together with the updated
`bind_data`: the C++ function mutates `from_epoch` and `cur_to_epoch` in place
after capturing their pre-advance values for the URL. -/
def GeneratePlan (bind_data : YahooFunctionData) :
    Option CSVPlan × YahooFunctionData :=
  if bind_data.cur_to_epoch > bind_data.to_epoch then
    -- we are done
    (none, bind_data)
  else
    (some
      { url := "https://query1.finance.yahoo.com/v7/finance/download/" ++
               bind_data.symbol ++ "?period1=" ++ toString bind_data.from_epoch ++
               "&period2=" ++ toString bind_data.cur_to_epoch ++
               "&interval=" ++ bind_data.interval ++ "&events=history"
        columns := [("Date", LogicalType.DATE),
                    ("Open", LogicalType.DOUBLE),
                    ("High", LogicalType.DOUBLE),
                    ("Low", LogicalType.DOUBLE),
                    ("Close", LogicalType.DOUBLE),
                    ("Adj Close", LogicalType.DOUBLE),
                    ("Volume", LogicalType.HUGEINT)]
        header := true
        nullstr := "null" },
     { bind_data with
        from_epoch := bind_data.from_epoch + bind_data.increment_epoch
        cur_to_epoch := bind_data.cur_to_epoch + bind_data.increment_epoch })

/-- The spec's RowSchema: the fixed ordered list of seven columns
(the code spells the sixth column name with a space, `Adj Close`). -/
def RowSchema : List (String × LogicalType) :=
  [("Date", LogicalType.DATE),
   ("Open", LogicalType.DOUBLE),
   ("High", LogicalType.DOUBLE),
   ("Low", LogicalType.DOUBLE),
   ("Close", LogicalType.DOUBLE),
   ("Adj Close", LogicalType.DOUBLE),
   ("Volume", LogicalType.HUGEINT)]

/-- The literal list of accepted intervals built by `ValidInterval`
(yahoo_finance.cpp lines 85-87). -/
def accepted_intervals : String :=
  "1d: 1 day interval\n5d: 5 day interval\n1wk: 1 week interval\n1mo: 1 month interval\n3mo: 3 month interval\n"

/-- The set of valid interval labels (yahoo_finance.cpp lines 82-83). -/
def valid_interval : List String := ["1d", "5d", "1wk", "1mo", "3mo"]

/-- Embeds `ValidInterval` (yahoo_finance.cpp lines 81-93); the thrown
`InvalidInputException` is modelled as `Except.error` carrying the message. -/
def ValidInterval (interval : String) : Except String Unit :=
  if valid_interval.contains interval then
    Except.ok ()
  else
    Except.error
      ("Interval is not valid, you should use one of the following valid intervals: \n" ++
       accepted_intervals)

/-- Embeds `duckdb::Date::Epoch`: a `date_t` day count to seconds since the
Unix epoch. -/
def DateEpoch (d : Int) : Int := d * SECS_PER_DAY

/-- Embeds `YahooScanner::Bind` (yahoo_finance.cpp lines 95-130), after the
host-value extraction: inputs are the symbol, the two dates as day counts,
and the interval string.  The code validates the interval, then the range,
constructs the `YahooFunctionData`, stores the first window's plan in it and
returns the plan's columns as the output schema.  (The C++ code dereferences
`result->plan` unconditionally; `bind_plan_isSome` below proves the plan is
never null at that point, so the `getD []` default is unreachable.) -/
def Bind (symbol : String) (from_date to_date : Int) (interval : String) :
    Except String (YahooFunctionData × List (String × LogicalType)) :=
  match ValidInterval interval with
  | Except.error e => Except.error e
  | Except.ok _ =>
    if to_date ≤ from_date then
      Except.error "The End period must be higher than the start period"
    else
      let result := mkYahooFunctionData symbol (DateEpoch from_date)
        (DateEpoch to_date) interval
      let gp := GeneratePlan result
      Except.ok ({ gp.2 with plan := gp.1 },
                 (gp.1.map CSVPlan.columns).getD [])

/-- Embeds `YahooScanner::Scan` (yahoo_finance.cpp lines 131-146).  The
external `Execute`/`Fetch` pair is the `fetch` collaborator; `none` models a
null result chunk.  Returns the chunk moved into `output` (or `none` when the
function returns without writing output, which the host engine reads as end
of stream) together with the updated bind data. -/
def Scan {α : Type} (fetch : CSVPlan → Option α) (data : YahooFunctionData) :
    Option α × YahooFunctionData :=
  match data.plan with
  | none => (none, data)
  | some plan =>
    match fetch plan with
    | none => (none, data)
    | some result_chunk =>
      let gp := GeneratePlan data
      (some result_chunk, { gp.2 with plan := gp.1 })

/-- Trace of the windows issued by repeatedly calling `GeneratePlan` with the
given fuel: each issued window is recorded as its pre-advance
`(from_epoch, cur_to_epoch)` pair, i.e. the `period1`/`period2` values placed
in the request URL. -/
def pullWindows : Nat → YahooFunctionData → List (Int × Int)
  | 0, _ => []
  | n + 1, s =>
    match (GeneratePlan s).1 with
    | none => []
    | some _ => (s.from_epoch, s.cur_to_epoch) :: pullWindows n (GeneratePlan s).2

/-- State after `n` calls of `GeneratePlan` (each call either advances the
cursor or, once exhausted, leaves the state unchanged). -/
def pullState : Nat → YahooFunctionData → YahooFunctionData
  | 0, s => s
  | n + 1, s => pullState n (GeneratePlan s).2

/-- Number of windows still to be issued from a given state (meaningful when
`0 < increment_epoch`). -/
def remainingWindows (s : YahooFunctionData) : Nat :=
  if s.cur_to_epoch ≤ s.to_epoch then
    ((s.to_epoch - s.cur_to_epoch) / s.increment_epoch).toNat + 1
  else 0

/-- Decides whether an epoch instant is covered by one of the issued windows,
reading each window as the half-open interval of its request bounds. -/
def coveredBy (x : Int) (ws : List (Int × Int)) : Bool :=
  ws.any (fun w => decide (w.1 ≤ x) && decide (x < w.2))

end Scrooge

namespace Scrooge

/-! ### Basic lemmas about `GeneratePlan` -/

theorem GeneratePlan_of_done {s : YahooFunctionData}
    (h : s.to_epoch < s.cur_to_epoch) : GeneratePlan s = (none, s) := by
  unfold GeneratePlan
  rw [if_pos h]

theorem GeneratePlan_fst_of_ready {s : YahooFunctionData}
    (h : s.cur_to_epoch ≤ s.to_epoch) :
    (GeneratePlan s).1 = some
      { url := "https://query1.finance.yahoo.com/v7/finance/download/" ++
               s.symbol ++ "?period1=" ++ toString s.from_epoch ++
               "&period2=" ++ toString s.cur_to_epoch ++
               "&interval=" ++ s.interval ++ "&events=history"
        columns := RowSchema
        header := true
        nullstr := "null" } := by
  unfold GeneratePlan
  rw [if_neg (not_lt.mpr h)]
  rfl

theorem GeneratePlan_snd_of_ready {s : YahooFunctionData}
    (h : s.cur_to_epoch ≤ s.to_epoch) :
    (GeneratePlan s).2 = { s with
      from_epoch := s.from_epoch + s.increment_epoch
      cur_to_epoch := s.cur_to_epoch + s.increment_epoch } := by
  unfold GeneratePlan
  rw [if_neg (not_lt.mpr h)]

theorem GeneratePlan_fst_eq_none_iff (s : YahooFunctionData) :
    (GeneratePlan s).1 = none ↔ s.to_epoch < s.cur_to_epoch := by
  constructor
  · intro h
    by_contra hc
    rw [GeneratePlan_fst_of_ready (not_lt.mp hc)] at h
    exact Option.some_ne_none _ h
  · intro h
    rw [GeneratePlan_of_done h]

theorem GeneratePlan_to_epoch (s : YahooFunctionData) :
    (GeneratePlan s).2.to_epoch = s.to_epoch := by
  unfold GeneratePlan
  split <;> rfl

theorem GeneratePlan_increment (s : YahooFunctionData) :
    (GeneratePlan s).2.increment_epoch = s.increment_epoch := by
  unfold GeneratePlan
  split <;> rfl

theorem GeneratePlan_symbol (s : YahooFunctionData) :
    (GeneratePlan s).2.symbol = s.symbol := by
  unfold GeneratePlan
  split <;> rfl

theorem GeneratePlan_interval (s : YahooFunctionData) :
    (GeneratePlan s).2.interval = s.interval := by
  unfold GeneratePlan
  split <;> rfl

/-! ### Lemmas about interval validation -/

theorem ValidInterval_ok_mem {iv : String} (h : ValidInterval iv = Except.ok ()) :
    iv ∈ valid_interval := by
  unfold ValidInterval at h
  split at h
  · exact List.mem_of_elem_eq_true (by assumption)
  · exact absurd h (by simp)

theorem ValidInterval_cases {iv : String} (h : ValidInterval iv = Except.ok ()) :
    iv = "1d" ∨ iv = "5d" ∨ iv = "1wk" ∨ iv = "1mo" ∨ iv = "3mo" := by
  have := ValidInterval_ok_mem h
  simpa [valid_interval] using this

theorem IntervalInEpoch_pos {iv : String} (h : ValidInterval iv = Except.ok ()) :
    0 < IntervalInEpoch iv := by
  rcases ValidInterval_cases h with h1 | h1 | h1 | h1 | h1 <;> subst h1 <;> decide

end Scrooge

namespace Scrooge

/-! ### Lemmas about the constructor -/

theorem mk_to_epoch (sym : String) (f t : Int) (iv : String) :
    (mkYahooFunctionData sym f t iv).to_epoch = t := rfl

theorem mk_from_epoch (sym : String) (f t : Int) (iv : String) :
    (mkYahooFunctionData sym f t iv).from_epoch = f := rfl

theorem mk_plan (sym : String) (f t : Int) (iv : String) :
    (mkYahooFunctionData sym f t iv).plan = none := rfl

theorem mk_symbol (sym : String) (f t : Int) (iv : String) :
    (mkYahooFunctionData sym f t iv).symbol = sym := rfl

theorem mk_interval (sym : String) (f t : Int) (iv : String) :
    (mkYahooFunctionData sym f t iv).interval = iv := rfl

theorem toInt32_lb (x : Int) : -2147483648 ≤ toInt32 x := by
  unfold toInt32
  omega

theorem toInt32_ub (x : Int) : toInt32 x < 2147483648 := by
  unfold toInt32
  omega

theorem toInt32_eq_self {x : Int} (h1 : -2147483648 ≤ x)
    (h2 : x < 2147483648) : toInt32 x = x := by
  unfold toInt32
  omega

theorem mk_increment_eq (sym : String) (f t : Int) (iv : String) :
    (mkYahooFunctionData sym f t iv).increment_epoch =
      if toInt32 ((t - f).tdiv (IntervalInEpoch iv) + 1) > 60 then
        (t - f).tdiv
          ((toInt32 ((t - f).tdiv (IntervalInEpoch iv) + 1)).tdiv 60 + 1)
      else t - f := rfl

theorem mk_cur_to_eq (sym : String) (f t : Int) (iv : String) :
    (mkYahooFunctionData sym f t iv).cur_to_epoch =
      if f + (mkYahooFunctionData sym f t iv).increment_epoch < t then
        f + (mkYahooFunctionData sym f t iv).increment_epoch
      else t := rfl

theorem mk_cur_to_le (sym : String) (f t : Int) (iv : String) :
    (mkYahooFunctionData sym f t iv).cur_to_epoch ≤ t := by
  rw [mk_cur_to_eq]
  split
  · omega
  · omega

theorem mk_increment_pos (sym : String) (f t : Int) (iv : String)
    (hv : ValidInterval iv = Except.ok ()) (hft : f < t) :
    0 < (mkYahooFunctionData sym f t iv).increment_epoch := by
  have hie : 0 < IntervalInEpoch iv := IntervalInEpoch_pos hv
  have hD1 : 1 ≤ t - f := by omega
  rw [mk_increment_eq]
  split
  · rename_i h60
    have hub := toInt32_ub ((t - f).tdiv (IntervalInEpoch iv) + 1)
    have hq : (toInt32 ((t - f).tdiv (IntervalInEpoch iv) + 1)).tdiv 60 =
        toInt32 ((t - f).tdiv (IntervalInEpoch iv) + 1) / 60 :=
      Int.tdiv_eq_ediv (by omega) (by norm_num)
    rw [hq]
    have hq1 : 1 ≤ toInt32 ((t - f).tdiv (IntervalInEpoch iv) + 1) / 60 :=
      (Int.le_ediv_iff_mul_le (by norm_num)).mpr (by omega)
    have hqub : toInt32 ((t - f).tdiv (IntervalInEpoch iv) + 1) / 60 ≤
        35791394 := by
      have h := Int.ediv_le_ediv (show (0 : Int) < 60 by norm_num)
        (show toInt32 ((t - f).tdiv (IntervalInEpoch iv) + 1) ≤ 2147483647 by
          omega)
      have h647 : (2147483647 : Int) / 60 = 35791394 := by decide
      omega
    have hexp : (t - f).tdiv (IntervalInEpoch iv) =
        (t - f) / IntervalInEpoch iv :=
      Int.tdiv_eq_ediv (by omega) (le_of_lt hie)
    have hexp0 : 0 ≤ (t - f) / IntervalInEpoch iv :=
      Int.ediv_nonneg (by omega) (le_of_lt hie)
    have h1 : (t - f) / IntervalInEpoch iv ≤ t - f :=
      Int.ediv_le_self _ (by omega)
    -- the divisor is at most t - f, whether or not the narrowing wrapped
    have hqD : toInt32 ((t - f).tdiv (IntervalInEpoch iv) + 1) / 60 + 1 ≤
        t - f := by
      by_cases hw : (t - f) / IntervalInEpoch iv + 1 < 2147483648
      · have hid : toInt32 ((t - f).tdiv (IntervalInEpoch iv) + 1) =
            (t - f) / IntervalInEpoch iv + 1 := by
          rw [hexp]
          exact toInt32_eq_self (by omega) hw
        rw [hid]
        have h2 : ((t - f) / IntervalInEpoch iv + 1) / 60 ≤ (t - f + 1) / 60 :=
          Int.ediv_le_ediv (by norm_num) (by omega)
        have h3 : (t - f + 1) / 60 < t - f :=
          (Int.ediv_lt_iff_lt_mul (by norm_num)).mpr (by omega)
        omega
      · -- wrap is only reachable when the range spans at least 2^31 - 1
        omega
    rw [Int.tdiv_eq_ediv (by omega) (by omega)]
    rw [Int.lt_iff_add_one_le, zero_add]
    rw [Int.le_ediv_iff_mul_le (by omega), one_mul]
    exact hqD
  · omega

theorem mk_increment_lt (sym : String) (f t : Int) (iv : String)
    (hft : f < t)
    (h60 : 60 < toInt32 ((t - f).tdiv (IntervalInEpoch iv) + 1)) :
    (mkYahooFunctionData sym f t iv).increment_epoch < t - f := by
  have hD1 : 1 ≤ t - f := by omega
  rw [mk_increment_eq, if_pos h60]
  have hq : (toInt32 ((t - f).tdiv (IntervalInEpoch iv) + 1)).tdiv 60 =
      toInt32 ((t - f).tdiv (IntervalInEpoch iv) + 1) / 60 :=
    Int.tdiv_eq_ediv (by omega) (by norm_num)
  rw [hq]
  have hq1 : 1 ≤ toInt32 ((t - f).tdiv (IntervalInEpoch iv) + 1) / 60 :=
    (Int.le_ediv_iff_mul_le (by norm_num)).mpr (by omega)
  rw [Int.tdiv_eq_ediv (by omega) (by omega)]
  refine (Int.ediv_lt_iff_lt_mul (by omega)).mpr ?_
  have h2 : (t - f) * 2 ≤
      (t - f) * (toInt32 ((t - f).tdiv (IntervalInEpoch iv) + 1) / 60 + 1) :=
    mul_le_mul_of_nonneg_left (by omega) (by omega)
  omega

theorem mk_cur_to_of_many (sym : String) (f t : Int) (iv : String)
    (hft : f < t)
    (h60 : 60 < toInt32 ((t - f).tdiv (IntervalInEpoch iv) + 1)) :
    (mkYahooFunctionData sym f t iv).cur_to_epoch =
      f + (mkYahooFunctionData sym f t iv).increment_epoch := by
  have := mk_increment_lt sym f t iv hft h60
  rw [mk_cur_to_eq, if_pos (by omega)]

theorem mk_increment_of_few (sym : String) (f t : Int) (iv : String)
    (h60 : ¬ 60 < toInt32 ((t - f).tdiv (IntervalInEpoch iv) + 1)) :
    (mkYahooFunctionData sym f t iv).increment_epoch = t - f := by
  rw [mk_increment_eq, if_neg h60]

theorem mk_cur_to_of_few (sym : String) (f t : Int) (iv : String)
    (h60 : ¬ 60 < toInt32 ((t - f).tdiv (IntervalInEpoch iv) + 1)) :
    (mkYahooFunctionData sym f t iv).cur_to_epoch = t := by
  have := mk_increment_of_few sym f t iv h60
  rw [mk_cur_to_eq, if_neg (by omega)]

end Scrooge

namespace Scrooge

/-! ### The window trace: closed form and termination -/

theorem remainingWindows_of_ready {s : YahooFunctionData}
    (h : s.cur_to_epoch ≤ s.to_epoch) :
    remainingWindows s =
      ((s.to_epoch - s.cur_to_epoch) / s.increment_epoch).toNat + 1 := by
  unfold remainingWindows
  rw [if_pos h]

theorem remainingWindows_of_done {s : YahooFunctionData}
    (h : s.to_epoch < s.cur_to_epoch) : remainingWindows s = 0 := by
  unfold remainingWindows
  rw [if_neg (not_le.mpr h)]

theorem remaining_advance {s : YahooFunctionData}
    (hinc : 0 < s.increment_epoch) (h : s.cur_to_epoch ≤ s.to_epoch) :
    remainingWindows (GeneratePlan s).2 + 1 = remainingWindows s := by
  rw [GeneratePlan_snd_of_ready h, remainingWindows_of_ready h]
  unfold remainingWindows
  dsimp only
  split
  · rename_i h2
    have key : s.to_epoch - (s.cur_to_epoch + s.increment_epoch) =
        (s.to_epoch - s.cur_to_epoch) + (-1) * s.increment_epoch := by ring
    rw [key, Int.add_mul_ediv_right _ _ (ne_of_gt hinc)]
    have h1 : 1 ≤ (s.to_epoch - s.cur_to_epoch) / s.increment_epoch :=
      (Int.le_ediv_iff_mul_le hinc).mpr (by omega)
    omega
  · rename_i h2
    have h0 : (s.to_epoch - s.cur_to_epoch) / s.increment_epoch = 0 :=
      Int.ediv_eq_zero_of_lt (by omega) (by omega)
    omega

theorem pullWindows_closed (n : Nat) (s : YahooFunctionData)
    (hinc : 0 < s.increment_epoch) :
    pullWindows n s = (List.range (min n (remainingWindows s))).map
      (fun (i : Nat) => (s.from_epoch + (i : Int) * s.increment_epoch,
                         s.cur_to_epoch + (i : Int) * s.increment_epoch)) := by
  induction n generalizing s with
  | zero => simp [pullWindows]
  | succ n ih =>
    by_cases h : s.cur_to_epoch ≤ s.to_epoch
    · have hsome := GeneratePlan_fst_of_ready h
      simp only [pullWindows, hsome]
      rw [ih _ (by rw [GeneratePlan_increment]; exact hinc)]
      have hadv := remaining_advance hinc h
      have hm : min (n + 1) (remainingWindows s) =
          min n (remainingWindows (GeneratePlan s).2) + 1 := by omega
      rw [hm, List.range_succ_eq_map, List.map_cons, List.map_map]
      refine List.cons_eq_cons.mpr ⟨by simp, ?_⟩
      rw [GeneratePlan_increment]
      apply List.map_congr_left
      intro i _
      simp only [Function.comp_apply, GeneratePlan_snd_of_ready h]
      simp only [Prod.mk.injEq]
      constructor <;> (push_cast; ring)
    · have hnone : (GeneratePlan s).1 = none := by
        rw [GeneratePlan_of_done (not_le.mp h)]
      simp [pullWindows, hnone, remainingWindows_of_done (not_le.mp h)]

theorem pullState_succ (n : Nat) (s : YahooFunctionData) :
    pullState (n + 1) s = (GeneratePlan (pullState n s)).2 := by
  induction n generalizing s with
  | zero => rfl
  | succ n ih =>
    show pullState (n + 1) (GeneratePlan s).2 = _
    rw [ih]
    rfl

theorem pullState_increment (n : Nat) (s : YahooFunctionData) :
    (pullState n s).increment_epoch = s.increment_epoch := by
  induction n generalizing s with
  | zero => rfl
  | succ n ih =>
    show (pullState n (GeneratePlan s).2).increment_epoch = _
    rw [ih, GeneratePlan_increment]

theorem pullState_to_epoch (n : Nat) (s : YahooFunctionData) :
    (pullState n s).to_epoch = s.to_epoch := by
  induction n generalizing s with
  | zero => rfl
  | succ n ih =>
    show (pullState n (GeneratePlan s).2).to_epoch = _
    rw [ih, GeneratePlan_to_epoch]

theorem GeneratePlan_pullState_none (n : Nat) (s : YahooFunctionData)
    (hinc : 0 < s.increment_epoch) (hn : remainingWindows s ≤ n) :
    (GeneratePlan (pullState n s)).1 = none := by
  induction n generalizing s with
  | zero =>
    have h0 : remainingWindows s = 0 := Nat.le_zero.mp hn
    have hlt : s.to_epoch < s.cur_to_epoch := by
      by_contra hc
      rw [remainingWindows_of_ready (not_lt.mp hc)] at h0
      omega
    show (GeneratePlan s).1 = none
    rw [GeneratePlan_of_done hlt]
  | succ n ih =>
    show (GeneratePlan (pullState n (GeneratePlan s).2)).1 = none
    by_cases h : s.cur_to_epoch ≤ s.to_epoch
    · have hadv := remaining_advance hinc h
      exact ih _ (by rw [GeneratePlan_increment]; exact hinc) (by omega)
    · rw [GeneratePlan_of_done (not_le.mp h)]
      exact ih s hinc (by rw [remainingWindows_of_done (not_le.mp h)]; omega)

end Scrooge

namespace Scrooge

/-! ### Claim theorems -/

/-- C8: for every supported interval label, `IntervalInEpoch` (the spec's
`DurationSeconds`) returns the documented constant — `1d` maps to 86400,
`5d` to 5*86400, `1wk` to 7*86400, `1mo` to 30*86400, `3mo` to 90*86400 —
and for every other string it returns 0. -/
theorem duration_constants :
    IntervalInEpoch "1d" = 86400 ∧
    IntervalInEpoch "5d" = 5 * 86400 ∧
    IntervalInEpoch "1wk" = 7 * 86400 ∧
    IntervalInEpoch "1mo" = 30 * 86400 ∧
    IntervalInEpoch "3mo" = 90 * 86400 ∧
    ∀ s : String, s ∉ valid_interval → IntervalInEpoch s = 0 := by
  refine ⟨by decide, by decide, by decide, by decide, by decide, ?_⟩
  intro s hs
  simp only [valid_interval, List.mem_cons, List.not_mem_nil, or_false,
    not_or] at hs
  obtain ⟨h1, h2, h3, h4, h5⟩ := hs
  simp [IntervalInEpoch, h1, h2, h3, h4, h5]

/-- Witness for C8: evaluates the mapping at the supported label `1d` and at
the unsupported label `2d`. -/
theorem duration_constants_witness :
    IntervalInEpoch "1d" = 86400 ∧ IntervalInEpoch "2d" = 0 :=
  ⟨duration_constants.1, duration_constants.2.2.2.2.2 "2d" (by decide)⟩

/-- C9: once interval validation has succeeded, the duration returned by the
interval lookup is strictly positive, and the second divisor of the
constructor (`expected_tuples / 60 + 1`, taken in the `expected_tuples > 60`
branch) is strictly positive as well, so neither of the constructor's
divisions divides by zero. -/
theorem validated_interval_divisors (iv : String)
    (h : ValidInterval iv = Except.ok ()) :
    0 < IntervalInEpoch iv ∧
    ∀ f t : Int, 60 < (t - f).tdiv (IntervalInEpoch iv) + 1 →
      0 < ((t - f).tdiv (IntervalInEpoch iv) + 1).tdiv 60 + 1 := by
  refine ⟨IntervalInEpoch_pos h, ?_⟩
  intro f t h60
  have hexp : (0 : Int) ≤ (t - f).tdiv (IntervalInEpoch iv) + 1 := by omega
  rw [Int.tdiv_eq_ediv hexp (by norm_num)]
  have h0 : 0 ≤ ((t - f).tdiv (IntervalInEpoch iv) + 1) / 60 :=
    Int.ediv_nonneg hexp (by norm_num)
  omega

/-- Witness for C9: the validated label `1d` gives a positive duration, and
for the 61-day range `[0, 5270400]` (62 expected samples) the second divisor
is positive. -/
theorem validated_interval_divisors_witness :
    0 < IntervalInEpoch "1d" ∧
    0 < ((5270400 - 0 : Int).tdiv (IntervalInEpoch "1d") + 1).tdiv 60 + 1 :=
  ⟨(validated_interval_divisors "1d" rfl).1,
   (validated_interval_divisors "1d" rfl).2 0 5270400 (by decide)⟩

/-- C6: `Bind` fails eagerly for every invalid input.  When the interval is
not one of the five valid labels it fails with the error whose message lists
the five valid intervals (the literal `accepted_intervals` text); when the
interval is valid but `to_date ≤ from_date` it fails with the invalid-range
error.  (The code checks the interval first, so the range error is stated
under a valid interval.)  In both cases the returned value is an error, so no
request is built. -/
theorem bind_validation_errors (sym : String) (fd td : Int) (iv : String) :
    (iv ∉ valid_interval →
      Bind sym fd td iv = Except.error
        ("Interval is not valid, you should use one of the following valid intervals: \n" ++
         accepted_intervals)) ∧
    (iv ∈ valid_interval → td ≤ fd →
      Bind sym fd td iv =
        Except.error "The End period must be higher than the start period") := by
  constructor
  · intro hn
    have hc : ¬ valid_interval.contains iv = true := fun hcc =>
      hn (List.mem_of_elem_eq_true hcc)
    have hvi : ValidInterval iv = Except.error
        ("Interval is not valid, you should use one of the following valid intervals: \n" ++
         accepted_intervals) := by
      unfold ValidInterval
      rw [if_neg hc]
    simp only [Bind, hvi]
  · intro hm hle
    have hvi : ValidInterval iv = Except.ok () := by
      unfold ValidInterval
      rw [if_pos (List.elem_eq_true_of_mem hm)]
    simp only [Bind, hvi]
    rw [if_pos hle]

/-- Witness for C6: the invalid interval `2d` is rejected with the message
listing the five valid intervals, and an empty range with the valid interval
`1d` is rejected with the invalid-range message. -/
theorem bind_validation_errors_witness :
    Bind "AAPL" 0 400 "2d" = Except.error
      ("Interval is not valid, you should use one of the following valid intervals: \n" ++
       accepted_intervals) ∧
    Bind "AAPL" 5 5 "1d" =
      Except.error "The End period must be higher than the start period" :=
  ⟨(bind_validation_errors "AAPL" 0 400 "2d").1 (by decide),
   (bind_validation_errors "AAPL" 5 5 "1d").2 (by decide) (by decide)⟩

/-- C7: every issued window builds a request whose URL carries exactly the
symbol, `period1` = the pre-advance `from_epoch`, `period2` = the pre-advance
`cur_to_epoch`, the interval, and the fixed `events=history` directive, and
passes the CSV collaborator exactly the fixed seven-column `RowSchema` with a
header row present and the literal string `null` as missing-value marker;
since the schema is the constant `RowSchema` for an arbitrary state, it is
identical across all requests. -/
theorem request_parameters_schema (s : YahooFunctionData) (p : CSVPlan)
    (h : (GeneratePlan s).1 = some p) :
    p.url = "https://query1.finance.yahoo.com/v7/finance/download/" ++
      s.symbol ++ "?period1=" ++ toString s.from_epoch ++
      "&period2=" ++ toString s.cur_to_epoch ++
      "&interval=" ++ s.interval ++ "&events=history" ∧
    p.columns = RowSchema ∧ p.header = true ∧ p.nullstr = "null" := by
  by_cases hc : s.cur_to_epoch ≤ s.to_epoch
  · rw [GeneratePlan_fst_of_ready hc] at h
    injection h with h2
    subst h2
    exact ⟨rfl, rfl, rfl, rfl⟩
  · rw [GeneratePlan_of_done (not_le.mp hc)] at h
    exact absurd h (by simp)

/-- Witness for C7: the first window of the one-window request
`AAPL, [0, 777600], 1d` produces exactly the expected URL and the fixed
schema configuration. -/
theorem request_parameters_schema_witness :
    (CSVPlan.mk
      "https://query1.finance.yahoo.com/v7/finance/download/AAPL?period1=0&period2=777600&interval=1d&events=history"
      RowSchema true "null").columns = RowSchema ∧
    (CSVPlan.mk
      "https://query1.finance.yahoo.com/v7/finance/download/AAPL?period1=0&period2=777600&interval=1d&events=history"
      RowSchema true "null").nullstr = "null" :=
  ⟨(request_parameters_schema (mkYahooFunctionData "AAPL" 0 777600 "1d")
      (CSVPlan.mk
        "https://query1.finance.yahoo.com/v7/finance/download/AAPL?period1=0&period2=777600&interval=1d&events=history"
        RowSchema true "null") (by decide)).2.1,
   (request_parameters_schema (mkYahooFunctionData "AAPL" 0 777600 "1d")
      (CSVPlan.mk
        "https://query1.finance.yahoo.com/v7/finance/download/AAPL?period1=0&period2=777600&interval=1d&events=history"
        RowSchema true "null") (by decide)).2.2.2⟩

end Scrooge

namespace Scrooge

/-- Helper: after a successful `Bind`, the stored plan is never null, because
the constructor always establishes `cur_to_epoch ≤ to_epoch`. -/
theorem bind_plan_isSome (sym : String) (fd td : Int) (iv : String)
    (d : YahooFunctionData) (cols : List (String × LogicalType))
    (h : Bind sym fd td iv = Except.ok (d, cols)) : d.plan.isSome = true := by
  unfold Bind at h
  cases hvi : ValidInterval iv with
  | error e => rw [hvi] at h; exact absurd h (by simp)
  | ok u =>
    rw [hvi] at h
    dsimp only at h
    split at h
    · exact absurd h (by simp)
    · simp only [Except.ok.injEq, Prod.mk.injEq] at h
      obtain ⟨hd, -⟩ := h
      subst hd
      simp only [GeneratePlan_fst_of_ready
        (le_of_le_of_eq (mk_cur_to_le sym (DateEpoch fd) (DateEpoch td) iv)
          (mk_to_epoch sym (DateEpoch fd) (DateEpoch td) iv).symm),
        Option.isSome_some]

/-- C10: whenever `GeneratePlan` returns a plan rather than null, its state
update advances `from_epoch` and `cur_to_epoch` each by exactly
`increment_epoch` and leaves every other field (`plan`, `symbol`,
`interval`, `to_epoch`, `increment_epoch`) unchanged; and `Bind` itself
performs exactly one such advance while storing the first window's plan, so
after a successful `Bind` the stored plan is the plan of the original first
window and the cursor already points at the second window. -/
theorem plan_advance_frame :
    (∀ s : YahooFunctionData, (GeneratePlan s).1.isSome = true →
      (GeneratePlan s).2 = { s with
        from_epoch := s.from_epoch + s.increment_epoch
        cur_to_epoch := s.cur_to_epoch + s.increment_epoch }) ∧
    (∀ (sym : String) (fd td : Int) (iv : String) (d : YahooFunctionData)
        (cols : List (String × LogicalType)),
      Bind sym fd td iv = Except.ok (d, cols) →
      d.plan = (GeneratePlan
        (mkYahooFunctionData sym (DateEpoch fd) (DateEpoch td) iv)).1 ∧
      d.plan.isSome = true ∧
      d.symbol = sym ∧ d.interval = iv ∧
      d.to_epoch = DateEpoch td ∧
      d.increment_epoch =
        (mkYahooFunctionData sym (DateEpoch fd) (DateEpoch td) iv).increment_epoch ∧
      d.from_epoch = DateEpoch fd + d.increment_epoch ∧
      d.cur_to_epoch =
        (mkYahooFunctionData sym (DateEpoch fd) (DateEpoch td) iv).cur_to_epoch +
          d.increment_epoch) := by
  constructor
  · intro s hsome
    by_cases hc : s.cur_to_epoch ≤ s.to_epoch
    · exact GeneratePlan_snd_of_ready hc
    · rw [GeneratePlan_of_done (not_le.mp hc)] at hsome
      exact absurd hsome (by simp)
  · intro sym fd td iv d cols h
    have hplan := bind_plan_isSome sym fd td iv d cols h
    unfold Bind at h
    cases hvi : ValidInterval iv with
    | error e => rw [hvi] at h; exact absurd h (by simp)
    | ok u =>
      rw [hvi] at h
      dsimp only at h
      split at h
      · exact absurd h (by simp)
      · simp only [Except.ok.injEq, Prod.mk.injEq] at h
        obtain ⟨hd, -⟩ := h
        subst hd
        have hready : (mkYahooFunctionData sym (DateEpoch fd) (DateEpoch td)
            iv).cur_to_epoch ≤
            (mkYahooFunctionData sym (DateEpoch fd) (DateEpoch td) iv).to_epoch := by
          rw [mk_to_epoch]
          exact mk_cur_to_le sym (DateEpoch fd) (DateEpoch td) iv
        refine ⟨rfl, hplan, ?_, ?_, ?_, ?_, ?_, ?_⟩ <;>
          simp [GeneratePlan_snd_of_ready hready, mk_from_epoch, mk_to_epoch,
            mk_symbol, mk_interval]

/-- Witness for C10: the one-window request `AAPL, [0, 777600], 1d` has its
whole state advanced by exactly one step when the first plan is generated. -/
theorem plan_advance_frame_witness :
    (GeneratePlan (mkYahooFunctionData "AAPL" 0 777600 "1d")).2 =
      { mkYahooFunctionData "AAPL" 0 777600 "1d" with
        from_epoch := (mkYahooFunctionData "AAPL" 0 777600 "1d").from_epoch +
          (mkYahooFunctionData "AAPL" 0 777600 "1d").increment_epoch
        cur_to_epoch := (mkYahooFunctionData "AAPL" 0 777600 "1d").cur_to_epoch +
          (mkYahooFunctionData "AAPL" 0 777600 "1d").increment_epoch } :=
  plan_advance_frame.1 (mkYahooFunctionData "AAPL" 0 777600 "1d") (by decide)

/-- Named empty-result collaborator: every window fetch returns a null chunk
(zero rows). -/
def noRows : CSVPlan → Option Unit := fun _ => none

/-- C2 counterexample: take the spec's own one-window scenario
(`AAPL`, days 0..9, interval `1d`; epochs `[0, 777600]`).  After `Bind`, the
bind data stores the first window's plan (so `done` is not set) and its
`from_epoch` (cursorFrom) equals `to_epoch` — cursorFrom does NOT exceed
toEpoch — yet the next `GeneratePlan` call returns null (EndOfStream, no
request built), because the actual check is on `cur_to_epoch`.  This refutes
the claimed equivalence with `done ∨ cursorFrom > toEpoch`. -/
theorem endofstream_check_counterexample :
    (GeneratePlan
        { (GeneratePlan (mkYahooFunctionData "AAPL" 0 777600 "1d")).2 with
          plan := (GeneratePlan (mkYahooFunctionData "AAPL" 0 777600 "1d")).1 }).1
      = none ∧
    ({ (GeneratePlan (mkYahooFunctionData "AAPL" 0 777600 "1d")).2 with
       plan := (GeneratePlan (mkYahooFunctionData "AAPL" 0 777600 "1d")).1 }
        : YahooFunctionData).plan.isSome = true ∧
    ¬ ({ (GeneratePlan (mkYahooFunctionData "AAPL" 0 777600 "1d")).2 with
         plan := (GeneratePlan (mkYahooFunctionData "AAPL" 0 777600 "1d")).1 }
        : YahooFunctionData).to_epoch <
      ({ (GeneratePlan (mkYahooFunctionData "AAPL" 0 777600 "1d")).2 with
         plan := (GeneratePlan (mkYahooFunctionData "AAPL" 0 777600 "1d")).1 }
        : YahooFunctionData).from_epoch := by
  refine ⟨by decide, by decide, by decide⟩

/-- C2 amended: for every cursor state, the compute-next-window step returns
EndOfStream (null plan) without building any request exactly when the current
`cur_to_epoch` (cursorTo) exceeds `to_epoch` — not cursorFrom — in which case
it also has no side effect, making the exhausted state terminal; and `Scan`
with `done` set (stored plan null) returns end of stream with no side
effect. -/
theorem endofstream_iff_cur_to {α : Type} (fetch : CSVPlan → Option α)
    (s : YahooFunctionData) :
    ((GeneratePlan s).1 = none ↔ s.to_epoch < s.cur_to_epoch) ∧
    ((GeneratePlan s).1 = none → (GeneratePlan s).2 = s) ∧
    (s.plan = none → Scan fetch s = (none, s)) := by
  refine ⟨GeneratePlan_fst_eq_none_iff s, ?_, ?_⟩
  · intro h
    rw [GeneratePlan_of_done ((GeneratePlan_fst_eq_none_iff s).mp h)]
  · intro h
    simp only [Scan, h]

/-- Witness for C2 (amended): at the concrete exhausted state reached after
the one window of `AAPL, [0, 777600], 1d`, the step returns EndOfStream with
no side effect, and `Scan` with a null stored plan returns end of stream
unchanged. -/
theorem endofstream_iff_cur_to_witness :
    (GeneratePlan
        (YahooFunctionData.mk none "AAPL" 777600 1555200 777600 "1d" 777600)).2 =
      YahooFunctionData.mk none "AAPL" 777600 1555200 777600 "1d" 777600 ∧
    Scan noRows
        (YahooFunctionData.mk none "AAPL" 777600 1555200 777600 "1d" 777600) =
      (none, YahooFunctionData.mk none "AAPL" 777600 1555200 777600 "1d" 777600) :=
  ⟨(endofstream_iff_cur_to noRows
      (YahooFunctionData.mk none "AAPL" 777600 1555200 777600 "1d" 777600)).2.1
      (by decide),
   (endofstream_iff_cur_to noRows
      (YahooFunctionData.mk none "AAPL" 777600 1555200 777600 "1d" 777600)).2.2
      rfl⟩

/-- C3 counterexample: a 400-day request (`AAPL`, epochs `[0, 34560000]`,
interval `1d`) produces a post-Bind state holding the first window's plan
with `cur_to_epoch ≤ to_epoch` (the bounds check is far from triggering).
When the fetch of that window returns an empty result, `Scan` returns with
NO output and the state completely unchanged: the cursor does not advance
past the window, the same plan stays stored, and the host engine — receiving
an empty output chunk — treats the scan as complete.  This refutes the claim
that the cursor still advances and that EndOfStream is never inferred from an
empty batch. -/
theorem empty_fetch_counterexample :
    Scan noRows
        { (GeneratePlan (mkYahooFunctionData "AAPL" 0 34560000 "1d")).2 with
          plan := (GeneratePlan (mkYahooFunctionData "AAPL" 0 34560000 "1d")).1 }
      = (none,
         { (GeneratePlan (mkYahooFunctionData "AAPL" 0 34560000 "1d")).2 with
           plan := (GeneratePlan (mkYahooFunctionData "AAPL" 0 34560000 "1d")).1 }) ∧
    ({ (GeneratePlan (mkYahooFunctionData "AAPL" 0 34560000 "1d")).2 with
       plan := (GeneratePlan (mkYahooFunctionData "AAPL" 0 34560000 "1d")).1 }
        : YahooFunctionData).plan.isSome = true ∧
    ({ (GeneratePlan (mkYahooFunctionData "AAPL" 0 34560000 "1d")).2 with
       plan := (GeneratePlan (mkYahooFunctionData "AAPL" 0 34560000 "1d")).1 }
        : YahooFunctionData).cur_to_epoch ≤
      ({ (GeneratePlan (mkYahooFunctionData "AAPL" 0 34560000 "1d")).2 with
         plan := (GeneratePlan (mkYahooFunctionData "AAPL" 0 34560000 "1d")).1 }
        : YahooFunctionData).to_epoch := by
  refine ⟨by decide, by decide, by decide⟩

/-- C3 amended: whenever the fetch of the currently stored window returns an
empty result, `Scan` returns no output and leaves the bind data — cursor and
stored plan alike — completely unchanged; since the host engine interprets an
empty output chunk as completion, end of stream IS reached from an empty
batch, before any bounds check against `to_epoch`. -/
theorem empty_fetch_no_advance {α : Type} (fetch : CSVPlan → Option α)
    (d : YahooFunctionData) (p : CSVPlan)
    (hp : d.plan = some p) (hf : fetch p = none) :
    Scan fetch d = (none, d) := by
  simp only [Scan, hp, hf]

/-- Witness for C3 (amended): the post-Bind state of `AAPL, [0, 777600], 1d`
holds its first window's plan; an empty fetch leaves it unchanged with no
output. -/
theorem empty_fetch_no_advance_witness :
    Scan noRows
        { (GeneratePlan (mkYahooFunctionData "AAPL" 0 777600 "1d")).2 with
          plan := (GeneratePlan (mkYahooFunctionData "AAPL" 0 777600 "1d")).1 }
      = (none,
         { (GeneratePlan (mkYahooFunctionData "AAPL" 0 777600 "1d")).2 with
           plan := (GeneratePlan (mkYahooFunctionData "AAPL" 0 777600 "1d")).1 }) :=
  empty_fetch_no_advance noRows
    { (GeneratePlan (mkYahooFunctionData "AAPL" 0 777600 "1d")).2 with
      plan := (GeneratePlan (mkYahooFunctionData "AAPL" 0 777600 "1d")).1 }
    (CSVPlan.mk
      "https://query1.finance.yahoo.com/v7/finance/download/AAPL?period1=0&period2=777600&interval=1d&events=history"
      RowSchema true "null")
    (by decide) rfl

end Scrooge

namespace Scrooge

/-- C4 counterexample: the valid request spanning 2^31 days at interval `1d`
(epochs `[0, 185542587187200]`).  The exact expectedSamples formula gives
2^31 + 1 > 60, but the source stores `expected_tuples` in a 32-bit `int`
(yahoo_finance.cpp line 31), which wraps it to -2147483647; the program
therefore takes the `≤ 60` branch and sets stepSize to the whole range,
not the claimed `(toEpoch - fromEpoch) / (expectedSamples/60 + 1)`
(which would be 5183999). -/
theorem construction_wrap_counterexample :
    60 < (185542587187200 - 0 : Int).tdiv (IntervalInEpoch "1d") + 1 ∧
    toInt32 ((185542587187200 - 0 : Int).tdiv (IntervalInEpoch "1d") + 1) =
      -2147483647 ∧
    (mkYahooFunctionData "AAPL" 0 185542587187200 "1d").increment_epoch =
      185542587187200 - 0 ∧
    (185542587187200 - 0 : Int).tdiv
        (((185542587187200 - 0 : Int).tdiv (IntervalInEpoch "1d") + 1).tdiv 60 +
          1) = 5183999 := by
  refine ⟨by decide, by decide, by decide, by decide⟩

/-- C4 amended: for every valid request, construction computes
`expected_tuples` as the 32-bit narrowing of
`(to_epoch - from_epoch) / interval_epoch + 1` — equal to the exact value
whenever that is below 2^31, i.e. for every realistic range — and sets
`increment_epoch` (stepSize) to
`(to_epoch - from_epoch) / (expected_tuples / 60 + 1)` (truncating integer
division) when the narrowed `expected_tuples > 60`, and to
`to_epoch - from_epoch` otherwise; the initial window upper bound is
`min (from_epoch + increment_epoch) to_epoch`; and in the
`expected_tuples ≤ 60` case exactly one window `[from_epoch, to_epoch]` is
produced, the second pull returning EndOfStream. -/
theorem construction_formulas (sym : String) (f t : Int) (iv : String)
    (hv : ValidInterval iv = Except.ok ()) (hft : f < t) :
    (mkYahooFunctionData sym f t iv).increment_epoch =
      (if 60 < toInt32 ((t - f).tdiv (IntervalInEpoch iv) + 1) then
        (t - f).tdiv
          ((toInt32 ((t - f).tdiv (IntervalInEpoch iv) + 1)).tdiv 60 + 1)
      else t - f) ∧
    ((t - f).tdiv (IntervalInEpoch iv) + 1 < 2147483648 →
      toInt32 ((t - f).tdiv (IntervalInEpoch iv) + 1) =
        (t - f).tdiv (IntervalInEpoch iv) + 1) ∧
    (mkYahooFunctionData sym f t iv).cur_to_epoch =
      min (f + (mkYahooFunctionData sym f t iv).increment_epoch) t ∧
    (toInt32 ((t - f).tdiv (IntervalInEpoch iv) + 1) ≤ 60 →
      (mkYahooFunctionData sym f t iv).increment_epoch = t - f ∧
      pullWindows 2 (mkYahooFunctionData sym f t iv) = [(f, t)] ∧
      (GeneratePlan (pullState 1 (mkYahooFunctionData sym f t iv))).1 = none) := by
  have hinc := mk_increment_pos sym f t iv hv hft
  have hie : 0 < IntervalInEpoch iv := IntervalInEpoch_pos hv
  refine ⟨mk_increment_eq sym f t iv, ?_, ?_, ?_⟩
  · intro hw
    have h0 : 0 ≤ (t - f).tdiv (IntervalInEpoch iv) :=
      Int.tdiv_nonneg (by omega) (by omega)
    exact toInt32_eq_self (by omega) hw
  · rw [mk_cur_to_eq]
    split
    · rename_i hlt
      exact (min_eq_left (le_of_lt hlt)).symm
    · rename_i hge
      exact (min_eq_right (not_lt.mp hge)).symm
  · intro h60
    have h60n : ¬ 60 < toInt32 ((t - f).tdiv (IntervalInEpoch iv) + 1) :=
      not_lt.mpr h60
    have hstep := mk_increment_of_few sym f t iv h60n
    have hcur := mk_cur_to_of_few sym f t iv h60n
    have hrem : remainingWindows (mkYahooFunctionData sym f t iv) = 1 := by
      rw [remainingWindows_of_ready (by rw [hcur, mk_to_epoch])]
      rw [hcur, mk_to_epoch, sub_self, Int.zero_ediv]
      rfl
    refine ⟨hstep, ?_, ?_⟩
    · rw [pullWindows_closed 2 _ hinc, hrem]
      simp [mk_from_epoch, hcur, List.range_succ]
    · exact GeneratePlan_pullState_none 1 _ hinc (by omega)

/-- Witness for C4 (amended): the spec's scenario `AAPL`, 9 days at `1d`
(epochs `[0, 777600]`, 10 expected samples, unchanged by the narrowing):
a single window `[0, 777600]` and EndOfStream on the second pull. -/
theorem construction_formulas_witness :
    pullWindows 2 (mkYahooFunctionData "AAPL" 0 777600 "1d") = [(0, 777600)] ∧
    (GeneratePlan (pullState 1 (mkYahooFunctionData "AAPL" 0 777600 "1d"))).1 =
      none :=
  ⟨((construction_formulas "AAPL" 0 777600 "1d" rfl (by decide)).2.2.2
      (by decide)).2.1,
   ((construction_formulas "AAPL" 0 777600 "1d" rfl (by decide)).2.2.2
      (by decide)).2.2⟩

/-- C5: for every valid request the step size is strictly positive, the
cursor position strictly increases on every issued window, the number of
issued windows equals the computed window count `remainingWindows`, and the
pull following the last issued window returns EndOfStream — so the scan
terminates after a finite number of calls bounded by the computed window
count. -/
theorem termination_bounded (sym : String) (f t : Int) (iv : String)
    (hv : ValidInterval iv = Except.ok ()) (hft : f < t) :
    0 < (mkYahooFunctionData sym f t iv).increment_epoch ∧
    (pullWindows (remainingWindows (mkYahooFunctionData sym f t iv))
        (mkYahooFunctionData sym f t iv)).length =
      remainingWindows (mkYahooFunctionData sym f t iv) ∧
    (GeneratePlan (pullState (remainingWindows (mkYahooFunctionData sym f t iv))
        (mkYahooFunctionData sym f t iv))).1 = none ∧
    (∀ n : Nat,
      ((GeneratePlan (pullState n (mkYahooFunctionData sym f t iv))).1).isSome =
        true →
      (pullState n (mkYahooFunctionData sym f t iv)).from_epoch <
        (pullState (n + 1) (mkYahooFunctionData sym f t iv)).from_epoch) := by
  have hinc := mk_increment_pos sym f t iv hv hft
  refine ⟨hinc, ?_, GeneratePlan_pullState_none _ _ hinc (le_refl _), ?_⟩
  · rw [pullWindows_closed _ _ hinc]
    simp
  · intro n hsome
    rw [pullState_succ]
    have hready : (pullState n (mkYahooFunctionData sym f t iv)).cur_to_epoch ≤
        (pullState n (mkYahooFunctionData sym f t iv)).to_epoch := by
      by_contra hc
      rw [GeneratePlan_of_done (not_le.mp hc)] at hsome
      exact absurd hsome (by simp)
    rw [GeneratePlan_snd_of_ready hready]
    have hpres := pullState_increment n (mkYahooFunctionData sym f t iv)
    show (pullState n (mkYahooFunctionData sym f t iv)).from_epoch <
      (pullState n (mkYahooFunctionData sym f t iv)).from_epoch +
        (pullState n (mkYahooFunctionData sym f t iv)).increment_epoch
    omega

/-- Witness for C5: for `AAPL, [0, 777600], 1d` the step is positive, the
single computed window is issued, and the pull after it is EndOfStream. -/
theorem termination_bounded_witness :
    0 < (mkYahooFunctionData "AAPL" 0 777600 "1d").increment_epoch ∧
    (GeneratePlan
        (pullState (remainingWindows (mkYahooFunctionData "AAPL" 0 777600 "1d"))
          (mkYahooFunctionData "AAPL" 0 777600 "1d"))).1 = none :=
  ⟨(termination_bounded "AAPL" 0 777600 "1d" rfl (by decide)).1,
   (termination_bounded "AAPL" 0 777600 "1d" rfl (by decide)).2.2.1⟩

end Scrooge

namespace Scrooge

/-- C1 counterexample: the spec's own 400-day scenario (`AAPL`, epochs
`[0, 34560000]`, interval `1d`, 401 expected samples).  The stream issues
exactly 7 windows (fuel 9 > 7 shows pulling further adds nothing and the
pull after the 7th window is EndOfStream), the last window ending at
34559994; the instant 34559999 lies in `[fromEpoch, toEpoch]` but in no
issued window, so the union of the issued windows does not cover
`[fromEpoch, toEpoch]`: the final 6 seconds are silently dropped because the
clamp at `toEpoch` is never re-applied after construction. -/
theorem window_union_gap_counterexample :
    60 < (34560000 - 0 : Int).tdiv (IntervalInEpoch "1d") + 1 ∧
    (pullWindows 9 (mkYahooFunctionData "AAPL" 0 34560000 "1d")).length = 7 ∧
    (GeneratePlan (pullState 7 (mkYahooFunctionData "AAPL" 0 34560000 "1d"))).1
      = none ∧
    coveredBy 34559999
      (pullWindows 9 (mkYahooFunctionData "AAPL" 0 34560000 "1d")) = false := by
  refine ⟨by decide, by decide, by decide, by decide⟩

/-- C1 amended: for every valid request whose `expected_tuples` — as the
program computes it, i.e. after the 32-bit narrowing — exceeds 60, repeated
pulls issue exactly `N = ⌊(toEpoch - fromEpoch) / stepSize⌋` windows — the
`i`-th being `[fromEpoch + i*stepSize, fromEpoch + (i+1)*stepSize]` — the
union of the issued windows' `[cursorFrom, cursorTo)` intervals is exactly
`[fromEpoch, fromEpoch + N*stepSize)`, which stays within `[fromEpoch,
toEpoch]` but may fall short of `toEpoch` by `(toEpoch - fromEpoch) mod
stepSize < stepSize` seconds (no clamp is re-applied after construction: a
window that would cross `toEpoch` is simply never issued), and the pull after
the `N`-th window returns EndOfStream. -/
theorem windows_union_amended (sym : String) (f t : Int) (iv : String)
    (inc : Int) (N : Nat)
    (hv : ValidInterval iv = Except.ok ()) (hft : f < t)
    (h60 : 60 < toInt32 ((t - f).tdiv (IntervalInEpoch iv) + 1))
    (hinc : inc = (mkYahooFunctionData sym f t iv).increment_epoch)
    (hN : N = ((t - f) / inc).toNat) :
    (∀ n : Nat, pullWindows n (mkYahooFunctionData sym f t iv) =
      (List.range (min n N)).map
        (fun (i : Nat) => (f + (i : Int) * inc, f + ((i : Int) + 1) * inc))) ∧
    (∀ (n : Nat) (w : Int × Int),
      w ∈ pullWindows n (mkYahooFunctionData sym f t iv) → w.2 ≤ t) ∧
    (∀ x : Int,
      coveredBy x (pullWindows N (mkYahooFunctionData sym f t iv)) = true ↔
        f ≤ x ∧ x < f + (N : Int) * inc) ∧
    f + (N : Int) * inc ≤ t ∧
    t - (f + (N : Int) * inc) < inc ∧
    (GeneratePlan (pullState N (mkYahooFunctionData sym f t iv))).1 = none := by
  have hincpos' : 0 < (mkYahooFunctionData sym f t iv).increment_epoch :=
    mk_increment_pos sym f t iv hv hft
  have hincpos0 : 0 < inc := by rw [hinc]; exact hincpos'
  have hlt : inc < t - f := by
    rw [hinc]; exact mk_increment_lt sym f t iv hft h60
  have hcur : (mkYahooFunctionData sym f t iv).cur_to_epoch = f + inc := by
    rw [hinc]; exact mk_cur_to_of_many sym f t iv hft h60
  have hready : (mkYahooFunctionData sym f t iv).cur_to_epoch ≤
      (mkYahooFunctionData sym f t iv).to_epoch := by
    rw [mk_to_epoch]; exact mk_cur_to_le sym f t iv
  have hq1 : 1 ≤ (t - f) / inc :=
    (Int.le_ediv_iff_mul_le hincpos0).mpr (by omega)
  have hNint : (N : Int) = (t - f) / inc := by
    rw [hN]; exact Int.toNat_of_nonneg (by omega)
  have hrem : remainingWindows (mkYahooFunctionData sym f t iv) = N := by
    rw [remainingWindows_of_ready hready, mk_to_epoch, hcur, ← hinc]
    have key : t - (f + inc) = (t - f) + (-1) * inc := by ring
    rw [key, Int.add_mul_ediv_right _ _ (ne_of_gt hincpos0)]
    set q := (t - f) / inc
    omega
  have part1 : ∀ n : Nat, pullWindows n (mkYahooFunctionData sym f t iv) =
      (List.range (min n N)).map
        (fun (i : Nat) => (f + (i : Int) * inc, f + ((i : Int) + 1) * inc)) := by
    intro n
    rw [pullWindows_closed n _ hincpos', hrem]
    apply List.map_congr_left
    intro i hi
    rw [mk_from_epoch, hcur, ← hinc]
    simp only [Prod.mk.injEq]
    exact ⟨trivial, by ring⟩
  have part4 : f + (N : Int) * inc ≤ t := by
    rw [hNint]
    have h1 := Int.ediv_mul_le (t - f) (ne_of_gt hincpos0)
    linarith
  have part5 : t - (f + (N : Int) * inc) < inc := by
    rw [hNint]
    have hmod := Int.emod_lt_of_pos (t - f) hincpos0
    have hdm := Int.ediv_add_emod (t - f) inc
    linarith
  have part2 : ∀ (n : Nat) (w : Int × Int),
      w ∈ pullWindows n (mkYahooFunctionData sym f t iv) → w.2 ≤ t := by
    intro n w hw
    rw [part1 n] at hw
    obtain ⟨i, hi, rfl⟩ := List.mem_map.mp hw
    have hiN : i < N := lt_of_lt_of_le (List.mem_range.mp hi) (min_le_right n N)
    have h1 : ((i : Int) + 1) ≤ (N : Int) := by exact_mod_cast hiN
    have h2 : ((i : Int) + 1) * inc ≤ (N : Int) * inc :=
      mul_le_mul_of_nonneg_right h1 (le_of_lt hincpos0)
    show f + ((i : Int) + 1) * inc ≤ t
    linarith
  refine ⟨part1, part2, ?_, part4, part5, ?_⟩
  · intro x
    rw [coveredBy, part1 N, min_self]
    simp only [List.any_eq_true, List.mem_map, List.mem_range,
      Bool.and_eq_true, decide_eq_true_eq]
    constructor
    · rintro ⟨w, ⟨i, hiN, rfl⟩, hle, hlt2⟩
      have hi0 : (0 : Int) ≤ (i : Int) * inc :=
        mul_nonneg (Int.natCast_nonneg i) (le_of_lt hincpos0)
      have h1 : ((i : Int) + 1) ≤ (N : Int) := by exact_mod_cast hiN
      have h2 : ((i : Int) + 1) * inc ≤ (N : Int) * inc :=
        mul_le_mul_of_nonneg_right h1 (le_of_lt hincpos0)
      simp only at hle hlt2
      exact ⟨by linarith, by linarith⟩
    · rintro ⟨hfx, hxN⟩
      have hy : 0 ≤ x - f := by omega
      have hynn : 0 ≤ (x - f) / inc := Int.ediv_nonneg hy (le_of_lt hincpos0)
      have hdivlt : (x - f) / inc < (N : Int) :=
        (Int.ediv_lt_iff_lt_mul hincpos0).mpr (by linarith)
      refine ⟨(f + (((x - f) / inc).toNat : Int) * inc,
               f + ((((x - f) / inc).toNat : Int) + 1) * inc),
              ⟨((x - f) / inc).toNat, ?_, rfl⟩, ?_, ?_⟩
      · set q := (x - f) / inc
        omega
      · have hc : ((((x - f) / inc).toNat : Int)) = (x - f) / inc :=
          Int.toNat_of_nonneg hynn
        rw [hc]
        have h1 := Int.ediv_mul_le (x - f) (ne_of_gt hincpos0)
        simp only
        linarith
      · have hc : ((((x - f) / inc).toNat : Int)) = (x - f) / inc :=
          Int.toNat_of_nonneg hynn
        rw [hc]
        have h1 := Int.lt_ediv_add_one_mul_self (x - f) hincpos0
        simp only
        linarith
  · exact GeneratePlan_pullState_none N _ hincpos' (by rw [hrem])

/-- Witness for C1 (amended): for the 400-day request the 7 issued windows
end at `0 + 7 * 4937142 = 34559994 ≤ 34560000`, and the uncovered tail
`34560000 - 34559994 = 6` is smaller than the step 4937142. -/
theorem windows_union_amended_witness :
    (0 : Int) + ((7 : Nat) : Int) * 4937142 ≤ 34560000 ∧
    (34560000 : Int) - ((0 : Int) + ((7 : Nat) : Int) * 4937142) < 4937142 :=
  ⟨(windows_union_amended "AAPL" 0 34560000 "1d" 4937142 7 rfl (by decide)
      (by decide) (by decide) (by decide)).2.2.2.1,
   (windows_union_amended "AAPL" 0 34560000 "1d" 4937142 7 rfl (by decide)
      (by decide) (by decide) (by decide)).2.2.2.2.1⟩

end Scrooge
